import Mathlib

/-!
Shallow embedding of the TummyTracker ML engine (`src/ml_engine.py`,
class `TummyTrackerML`) and verification of its specification.

Modelling decisions:
* Python numbers (feature values, probabilities) are `ℚ`; scaling, which divides
  by a standard deviation, is carried out in `ℝ`.
* sklearn's `LabelEncoder` stores its `classes_` array: the sorted distinct
  values seen at fit time.  `transform` on a value outside `classes_` raises a
  `ValueError`; this is modelled by `Option`/an explicit `raised` outcome.
* sklearn's `StandardScaler` stores per-column mean and (population) variance;
  its scale is `sqrt var`, with zero entries replaced by `1`
  (`_handle_zeros_in_scale`).
* The two library classifiers are opaque fitted objects: a `Classifier` is its
  `predict_proba` function on a single row, returning the two class
  probabilities.  The fitting procedures of the libraries are parameters of
  `train_models`.
* Python dictionaries (`self.models`, `self.label_encoders`) are association
  lists with insert-or-replace update.
* `joblib.dump`/`joblib.load` round-trip exactly; the model directory is a
  record with one optional slot per artifact path used by the engine.
-/

namespace TummyTracker

/-- Code-point lexicographic comparison of character lists, the order by
which `np.unique` sorts Python strings. -/
def charListLe : List Char → List Char → Bool
  | [], _ => true
  | _ :: _, [] => false
  | a :: as, b :: bs =>
    if a < b then true
    else if b < a then false
    else charListLe as bs

/-- The string order used by `np.unique`: code-point lexicographic. -/
def strLe (a b : String) : Prop := charListLe a.data b.data = true

instance : DecidableRel strLe := fun a b =>
  inferInstanceAs (Decidable (charListLe a.data b.data = true))

/-- sklearn `LabelEncoder` fitted state: the `classes_` array. -/
structure LabelEncoder where
  classes : List String
deriving DecidableEq, Repr

/-- Embeds `LabelEncoder().fit(values)` (also the fit half of `fit_transform`):
`classes_ = np.unique(values)`, the distinct values in sorted order. -/
def LabelEncoder.fit (values : List String) : LabelEncoder :=
  ⟨values.dedup.insertionSort strLe⟩

/-- Embeds `le.transform([v])`: the index of `v` in `classes_`; `none` models the
`ValueError` sklearn raises on a value unseen at fit time. -/
def LabelEncoder.transform (le : LabelEncoder) (v : String) : Option ℕ :=
  if v ∈ le.classes then some (le.classes.indexOf v) else none

/-- Embeds `le.fit_transform(values)`: fit, then transform each input value. -/
def LabelEncoder.fit_transform (values : List String) : LabelEncoder × List ℕ :=
  let le := LabelEncoder.fit values
  (le, values.map fun v => le.classes.indexOf v)

/-- Spec-side definition (CategoricalEncoder contract, spec §4.2): the distinct
values in FIRST-SEEN order.  Compared against `LabelEncoder.fit` for C7. -/
def firstSeenDistinct (values : List String) : List String :=
  values.foldl (fun acc v => if v ∈ acc then acc else acc ++ [v]) []

/-- Spec-side encoder (spec §4.2): code of `v` = its position among the
distinct values in first-seen order. -/
def firstSeenCode (values : List String) (v : String) : Option ℕ :=
  if v ∈ firstSeenDistinct values then some ((firstSeenDistinct values).indexOf v) else none

/-- Column mean of a list of rational samples (0 on the empty list, as a
convention; sklearn never fits on an empty column in the engine's flows). -/
def colMean (xs : List ℚ) : ℚ := xs.sum / xs.length

/-- Population variance (`ddof = 0`), as sklearn's `StandardScaler` computes. -/
def colVar (xs : List ℚ) : ℚ :=
  ((xs.map fun x => (x - colMean xs) ^ 2).sum) / xs.length

/-- sklearn `StandardScaler` fitted state: per-column `mean_` and `var_`.
An unfitted scaler is modelled by empty lists. -/
structure StandardScaler where
  mean : List ℚ
  var : List ℚ
deriving DecidableEq, Repr

/-- The `scale_` array: `sqrt(var_)` with zero entries replaced by `1`
(sklearn `_handle_zeros_in_scale`). -/
noncomputable def scaleOf (v : ℚ) : ℝ := if v = 0 then 1 else Real.sqrt (v : ℝ)

/-- Embeds `scaler.fit(X)` on a matrix given as a list of rows: per-column mean and
population variance.  The matrix is transposed column-wise by index. -/
def StandardScaler.fit (rows : List (List ℚ)) (ncols : ℕ) : StandardScaler :=
  { mean := (List.range ncols).map fun j => colMean (rows.map fun r => r.getD j 0)
    var := (List.range ncols).map fun j => colVar (rows.map fun r => r.getD j 0) }

/-- Embeds `scaler.transform` on a single row: `(x - mean_) / scale_` per column. -/
noncomputable def StandardScaler.transform (s : StandardScaler) (row : List ℚ) : List ℝ :=
  (List.zip row (List.zip s.mean s.var)).map
    fun p => ((p.1 : ℝ) - (p.2.1 : ℝ)) / scaleOf p.2.2

/-- A fitted binary classifier, abstracted to its `predict_proba` on one
standardized row: the probabilities `(p0, p1)` of classes 0 and 1. -/
structure Classifier where
  predictProba : List ℝ → ℚ × ℚ

/-- Embeds `model.predict` on one row: the argmax class of `predict_proba`
(class 0 on a tie, as `np.argmax` takes the first maximum). -/
def Classifier.predictLabel (c : Classifier) (row : List ℝ) : ℕ :=
  if (c.predictProba row).2 > (c.predictProba row).1 then 1 else 0

/-- One entry of the engine's `self.models` dict: the fitted model, its
held-out accuracy (absent after `load_models`, which stores no accuracy),
and the display type string. -/
structure ModelInfo where
  model : Classifier
  accuracy : Option ℚ
  mtype : String

/-- Insert-or-replace update of a Python-dict-as-association-list. -/
def dictSet {α : Type} (d : List (String × α)) (k : String) (v : α) :
    List (String × α) :=
  if (d.lookup k).isSome then
    d.map fun p => if p.1 = k then (k, v) else p
  else d ++ [(k, v)]

/-- The mutable state of a `TummyTrackerML` instance. -/
structure MLEngine where
  models : List (String × ModelInfo)
  label_encoders : List (String × LabelEncoder)
  scaler : StandardScaler
  is_trained : Bool

/-- Embeds `TummyTrackerML.__init__`: empty dicts, fresh (unfitted) scaler,
`is_trained = False`. -/
def MLEngine.init : MLEngine :=
  { models := [], label_encoders := [], scaler := ⟨[], []⟩, is_trained := false }

/-- The accessors of a Python `datetime` used by the engine: `.hour`,
`.weekday()`, and the day count of `t - datetime(1970, 1, 1)`. -/
structure Timestamp where
  hour : ℕ
  weekday : ℕ
  days_since_epoch : ℤ
deriving DecidableEq, Repr

/-- The fields of a `Food` record read by the engine.  `none` models Python
`None` for the optional free-text fields. -/
structure Food where
  category : String
  ingredients : Option String
  allergens : Option String
deriving DecidableEq, Repr

/-- The fields of a `Meal` record read by the engine. -/
structure Meal where
  id : ℕ
  food : Food
  meal_time : Timestamp
  quantity : Option ℚ
  notes : Option String
deriving DecidableEq, Repr

/-- The fields of a `Symptom` record read by the engine. -/
structure Symptom where
  meal_id : ℕ
deriving DecidableEq, Repr

/-- Python truthiness of an optional string (`None` and `""` are falsy). -/
def strTruthy : Option String → Bool
  | none => false
  | some s => !(s = "")

/-- Python truthiness of an optional number (`None` and `0` are falsy). -/
def numTruthy : Option ℚ → Bool
  | none => false
  | some q => !(q = 0)

/-- Embeds Python `s.lower()` on the character list of a string (the engine
only matches ASCII keywords, so ASCII lowering is the relevant fragment). -/
def lowerChars (cs : List Char) : List Char := cs.map Char.toLower

/-- Tests whether the first character list is a prefix of the second. -/
def startsWithChars : List Char → List Char → Bool
  | [], _ => true
  | _ :: _, [] => false
  | a :: w, b :: s => a == b && startsWithChars w s

/-- Embeds Python `word in text`: substring containment of character lists
(`containsChars w s` holds when some suffix of `s` starts with `w`). -/
def containsChars (w : List Char) : List Char → Bool
  | [] => w.isEmpty
  | b :: s => startsWithChars w (b :: s) || containsChars w s

/-- The fixed dairy keyword list of `prepare_features`, in source order. -/
def dairyWords : List String := ["milk", "cheese", "yogurt", "butter", "cream"]

/-- The fixed gluten keyword list of `prepare_features`, in source order. -/
def glutenWords : List String := ["wheat", "flour", "bread", "pasta"]

/-- The fixed spicy keyword list of `prepare_features`, in source order. -/
def spicyWords : List String := ["pepper", "chili", "hot", "spicy"]

/-- The fixed allergen keyword list of `prepare_features`, in source order. -/
def allergenWords : List String := ["dairy", "nuts", "gluten", "soy", "fish"]

/-- Embeds `1 if any(word in text_lower for word in words) else 0`. -/
def anyWordIn (words : List String) (textLower : List Char) : ℕ :=
  if words.any (fun w => containsChars w.data textLower) then 1 else 0

/-- The numeric feature fields of one meal row (the `meal_features` dict
without the raw categorical `food_category` and without the target). -/
structure FeatureRow where
  meal_hour : ℕ
  meal_day_of_week : ℕ
  has_quantity : ℕ
  quantity : ℚ
  has_notes : ℕ
  has_ingredients : ℕ
  has_dairy : ℕ
  has_gluten : ℕ
  has_spicy : ℕ
  has_allergens : ℕ
  allergen_count : ℕ
  days_since_epoch : ℤ
deriving DecidableEq, Repr

/-- The per-meal body of the `for meal in meals_data` loop of
`prepare_features`: every feature of the `meal_features` dict except the raw
`food_category` string (kept separately) and the target. -/
def mealFeatureRow (meal : Meal) : FeatureRow :=
  { meal_hour := meal.meal_time.hour
    meal_day_of_week := meal.meal_time.weekday
    has_quantity := if numTruthy meal.quantity then 1 else 0
    quantity := if numTruthy meal.quantity then meal.quantity.getD 0 else 0
    has_notes := if strTruthy meal.notes then 1 else 0
    has_ingredients := if strTruthy meal.food.ingredients then 1 else 0
    has_dairy :=
      if strTruthy meal.food.ingredients then
        anyWordIn dairyWords (lowerChars (meal.food.ingredients.getD "").data)
      else 0
    has_gluten :=
      if strTruthy meal.food.ingredients then
        anyWordIn glutenWords (lowerChars (meal.food.ingredients.getD "").data)
      else 0
    has_spicy :=
      if strTruthy meal.food.ingredients then
        anyWordIn spicyWords (lowerChars (meal.food.ingredients.getD "").data)
      else 0
    has_allergens := if strTruthy meal.food.allergens then 1 else 0
    allergen_count :=
      if strTruthy meal.food.allergens then
        (allergenWords.filter
          (fun a => containsChars a.data
            (lowerChars (meal.food.allergens.getD "").data))).length
      else 0
    days_since_epoch := meal.meal_time.days_since_epoch }

/-- Embeds `1 if meal.id in meal_symptoms else 0`: the target label, set when at
least one symptom references the meal. -/
def causedSymptoms (symptoms : List Symptom) (meal : Meal) : ℕ :=
  if symptoms.any (fun s => s.meal_id = meal.id) then 1 else 0

/-- The encoded numeric row handed to the scaler and classifiers: the
`food_category` code followed by the numeric features, in the column order of
the `meal_features` dict. -/
def encodedRow (code : ℕ) (r : FeatureRow) : List ℚ :=
  [(code : ℚ), (r.meal_hour : ℚ), (r.meal_day_of_week : ℚ),
    (r.has_quantity : ℚ), r.quantity, (r.has_notes : ℚ),
    (r.has_ingredients : ℚ), (r.has_dairy : ℚ), (r.has_gluten : ℚ),
    (r.has_spicy : ℚ), (r.has_allergens : ℚ), (r.allergen_count : ℚ),
    (r.days_since_epoch : ℚ)]

/-- The number of feature columns of the engine's fixed schema. -/
def nFeatureCols : ℕ := 13

/-- Embeds `prepare_features(meals_data, symptoms_data)`: returns the updated engine
(a fresh `LabelEncoder` is fitted on the `food_category` column and stored in
`self.label_encoders`, for any non-empty input), and `X, y` — `none` models the
`None, None` returned for an empty meal list. -/
def prepare_features (e : MLEngine) (meals : List Meal) (symptoms : List Symptom) :
    MLEngine × Option (List (List ℚ)) × Option (List ℕ) :=
  if meals = [] then (e, none, none)
  else
    let cats := meals.map fun m => m.food.category
    let le := LabelEncoder.fit cats
    let e' := { e with label_encoders := dictSet e.label_encoders "food_category" le }
    let X := meals.map fun m =>
      encodedRow (le.classes.indexOf m.food.category) (mealFeatureRow m)
    let y := meals.map (causedSymptoms symptoms)
    (e', some X, some y)

/-- The `meal_features` dict handed to `predict_symptoms`: the raw
`food_category` string plus the numeric features, in the training schema. -/
structure MealFeatures where
  food_category : String
  row : FeatureRow
deriving DecidableEq, Repr

/-- One entry of `model_details`. -/
structure SubPrediction where
  prediction : String
  confidence : ℚ
deriving DecidableEq, Repr

/-- The result dict of `predict_symptoms`.  `model_details` is `none` in the
untrained-engine result, which carries no such key. -/
structure PredictionResult where
  prediction : String
  confidence : ℚ
  recommendation : String
  model_details : Option (SubPrediction × SubPrediction)
deriving DecidableEq, Repr

/-- An exception escaping `predict_symptoms`: sklearn's `ValueError` from
`LabelEncoder.transform` on an unseen value; a `KeyError` from indexing
`self.models` with an absent name; a `TypeError` from handing the raw
category string to the numeric scaler when no encoder is stored. -/
inductive PyError where
  | valueError
  | keyError
  | typeError
deriving DecidableEq, Repr

/-- Outcome of a `predict_symptoms` call: a returned dict, or a raised
exception propagating past the call. -/
inductive PredictOutcome where
  | ok (r : PredictionResult)
  | raised (e : PyError)
deriving DecidableEq, Repr

/-- Embeds `_generate_recommendation(meal_features, prediction, confidence)`. -/
def generate_recommendation (mf : MealFeatures) (prediction : ℕ) : String :=
  if prediction = 1 then
    if mf.food_category = "dairy" then
      "Consider dairy alternatives like almond milk or coconut yogurt."
    else if mf.food_category = "gluten" then
      "Try gluten-free alternatives like quinoa or rice."
    else if mf.food_category = "spicy" then
      "Consider milder versions or reduce spice levels."
    else
      "Monitor your symptoms and consider avoiding this food category temporarily."
  else
    "This food appears safe for you based on current data."

/-- The dict returned by `predict_symptoms` when `self.is_trained` is false. -/
def notTrainedResult : PredictionResult :=
  { prediction := "Model not trained"
    confidence := 0
    recommendation := "Need more data to make predictions"
    model_details := none }

/-- Embeds `predict_symptoms(meal_features)`.  Encoding happens first (raising
`ValueError` on a category unseen at fit time), then scaling, then both
classifiers run on the scaled row and their class probabilities are
averaged. -/
noncomputable def predict_symptoms (e : MLEngine) (mf : MealFeatures) : PredictOutcome :=
  if e.is_trained = false then .ok notTrainedResult
  else
    match e.label_encoders.lookup "food_category" with
    | none => .raised .typeError
    | some le =>
      match le.transform mf.food_category with
      | none => .raised .valueError
      | some code =>
        let X_scaled := e.scaler.transform (encodedRow code mf.row)
        match e.models.lookup "random_forest", e.models.lookup "logistic_regression" with
        | some rfInfo, some lrInfo =>
          let rf_pred := rfInfo.model.predictProba X_scaled
          let lr_pred := lrInfo.model.predictProba X_scaled
          let ensemble_prob := ((rf_pred.1 + lr_pred.1) / 2, (rf_pred.2 + lr_pred.2) / 2)
          let prediction := if ensemble_prob.2 > 1/2 then 1 else 0
          let confidence := max ensemble_prob.1 ensemble_prob.2
          .ok
            { prediction :=
                if prediction = 1 then "Likely to cause symptoms"
                else "Unlikely to cause symptoms"
              confidence := confidence
              recommendation := generate_recommendation mf prediction
              model_details := some
                (⟨if rf_pred.2 > 1/2 then "Likely" else "Unlikely", max rf_pred.1 rf_pred.2⟩,
                  ⟨if lr_pred.2 > 1/2 then "Likely" else "Unlikely", max lr_pred.1 lr_pred.2⟩) }
        | _, _ => .raised .keyError

/-- The model directory on disk, one optional slot per artifact path the
engine reads or writes (`random_forest.pkl`, `logistic_regression.pkl`,
`scaler.pkl`, `encoders.pkl`); `joblib` round-trips each object exactly. -/
structure Disk where
  random_forest : Option Classifier
  logistic_regression : Option Classifier
  scaler : Option StandardScaler
  encoders : Option (List (String × LabelEncoder))

/-- An empty model directory (the cold-start state). -/
def Disk.empty : Disk := ⟨none, none, none, none⟩

/-- Embeds `save_models()`: a no-op unless trained; otherwise dumps each entry of
`self.models` under its own name, then the scaler and the encoder table.
The engine only ever stores the keys `random_forest` and
`logistic_regression` in `self.models`, so the directory tracks exactly
those two classifier paths. -/
def save_models (e : MLEngine) (d : Disk) : Disk :=
  if e.is_trained = false then d
  else
    { random_forest :=
        match e.models.lookup "random_forest" with
        | some mi => some mi.model
        | none => d.random_forest
      logistic_regression :=
        match e.models.lookup "logistic_regression" with
        | some mi => some mi.model
        | none => d.logistic_regression
      scaler := some e.scaler
      encoders := some e.label_encoders }

/-- Embeds `load_models()`: installs each of the two classifier artifacts that is
present (with type strings `'Random Forest'` / `'Logistic Regression'` from
`name.replace('_', ' ').title()` and no accuracy key); then, if both the
scaler and the encoder artifacts are present, installs them, sets
`is_trained` and returns `True`; otherwise returns `False`.  Absent
artifacts never raise: every path is guarded by `os.path.exists` (and a
`try/except` wraps the body). -/
def load_models (e : MLEngine) (d : Disk) : MLEngine × Bool :=
  let m1 := match d.random_forest with
    | some c => dictSet e.models "random_forest" ⟨c, none, "Random Forest"⟩
    | none => e.models
  let m2 := match d.logistic_regression with
    | some c => dictSet m1 "logistic_regression" ⟨c, none, "Logistic Regression"⟩
    | none => m1
  match d.scaler, d.encoders with
  | some sc, some enc =>
    ({ models := m2, label_encoders := enc, scaler := sc, is_trained := true }, true)
  | _, _ => ({ e with models := m2 }, false)

/-- Embeds `accuracy_score(y_true, y_pred)`: the fraction of matching labels. -/
def accuracy_score (y_true y_pred : List ℕ) : ℚ :=
  (((y_true.zip y_pred).filter fun p => p.1 = p.2).length : ℚ) / y_true.length

/-- Embeds `train_models(X, y)`.  Returns `False` and leaves the engine untouched
when `X is None or y is None or len(X) < 10`; otherwise splits off a 20%
validation partition (`train_test_split` with `random_state=42` shuffles by a
fixed seed-determined permutation; it is modelled here by the deterministic
head/tail split, which no verified property depends on), fits the scaler on
the training partition, fits both classifiers (their library fitting
procedures `fitRF`, `fitLR` are opaque parameters), records held-out
accuracies, stores both model entries, sets `is_trained`, and calls
`save_models()`. -/
noncomputable def train_models (e : MLEngine) (d : Disk)
    (fitRF fitLR : List (List ℝ) → List ℕ → Classifier)
    (X : Option (List (List ℚ))) (y : Option (List ℕ)) :
    MLEngine × Disk × Bool :=
  match X, y with
  | some Xv, some yv =>
    if Xv.length < 10 then (e, d, false)
    else
      let n_test := (Xv.length + 4) / 5
      let n_train := Xv.length - n_test
      let X_train := Xv.take n_train
      let X_test := Xv.drop n_train
      let y_train := yv.take n_train
      let y_test := yv.drop n_train
      let scaler := StandardScaler.fit X_train nFeatureCols
      let X_train_scaled := X_train.map scaler.transform
      let X_test_scaled := X_test.map scaler.transform
      let rf_model := fitRF X_train_scaled y_train
      let rf_score := accuracy_score y_test (X_test_scaled.map rf_model.predictLabel)
      let lr_model := fitLR X_train_scaled y_train
      let lr_score := accuracy_score y_test (X_test_scaled.map lr_model.predictLabel)
      let models' :=
        dictSet (dictSet e.models "random_forest" ⟨rf_model, some rf_score, "Random Forest"⟩)
          "logistic_regression" ⟨lr_model, some lr_score, "Logistic Regression"⟩
      let e' := { e with models := models', scaler := scaler, is_trained := true }
      (e', save_models e' d, true)
  | _, _ => (e, d, false)

/-- The training request (spec §2 data flow): feature preparation followed by
`train_models` on its output. -/
noncomputable def trainRequest (e : MLEngine) (d : Disk)
    (fitRF fitLR : List (List ℝ) → List ℕ → Classifier)
    (meals : List Meal) (symptoms : List Symptom) :
    MLEngine × Disk × Bool :=
  let p := prepare_features e meals symptoms
  train_models p.1 d fitRF fitLR p.2.1 p.2.2

/-! ### Helper lemmas and concrete sample objects -/

theorem lookup_cons_eq {α : Type} (k : String) (p : String × α) (t : List (String × α)) :
    (p :: t).lookup k = if k = p.1 then some p.2 else t.lookup k := by
  obtain ⟨pk, pv⟩ := p
  by_cases h : k = pk
  · subst h
    simp [List.lookup]
  · have hb : (k == pk) = false := beq_false_of_ne h
    simp [List.lookup, hb, h]

theorem lookup_map_set {α : Type} (d : List (String × α)) (k : String) (v : α)
    (h : (d.lookup k).isSome = true) :
    (d.map fun p => if p.1 = k then (k, v) else p).lookup k = some v := by
  induction d with
  | nil => simp [List.lookup] at h
  | cons p t ih =>
    obtain ⟨pk, pv⟩ := p
    by_cases hk : pk = k
    · subst hk
      simp [lookup_cons_eq]
    · have hk' : ¬ k = pk := fun he => hk he.symm
      rw [lookup_cons_eq] at h
      simp only [if_neg hk'] at h
      simp only [List.map_cons, Prod.fst, if_neg hk]
      rw [lookup_cons_eq]
      simp only [if_neg hk']
      exact ih h

theorem lookup_map_set_ne {α : Type} (d : List (String × α)) (k k' : String) (v : α)
    (hne : k' ≠ k) :
    (d.map fun p => if p.1 = k then (k, v) else p).lookup k' = d.lookup k' := by
  induction d with
  | nil => simp
  | cons p t ih =>
    obtain ⟨pk, pv⟩ := p
    by_cases hk : pk = k
    · subst hk
      simp [lookup_cons_eq, hne, ih]
    · simp only [List.map_cons, if_neg hk]
      rw [lookup_cons_eq, lookup_cons_eq]
      by_cases hk' : k' = pk
      · simp [hk']
      · simp only [if_neg hk']
        exact ih

theorem lookup_append_single {α : Type} (d : List (String × α)) (k : String) (v : α) :
    (d ++ [(k, v)]).lookup k = ((d.lookup k).getD v : α) := by
  induction d with
  | nil => simp [lookup_cons_eq]
  | cons p t ih =>
    rw [List.cons_append, lookup_cons_eq, lookup_cons_eq]
    by_cases hk : k = p.1
    · simp [hk]
    · simp only [if_neg hk]
      exact ih

theorem lookup_append_single_ne {α : Type} (d : List (String × α)) (k k' : String) (v : α)
    (hne : k' ≠ k) : (d ++ [(k, v)]).lookup k' = d.lookup k' := by
  induction d with
  | nil => simp [lookup_cons_eq, if_neg hne]
  | cons p t ih =>
    rw [List.cons_append, lookup_cons_eq, lookup_cons_eq]
    by_cases hk : k' = p.1
    · simp [hk]
    · simp only [if_neg hk]
      exact ih

theorem lookup_dictSet_self {α : Type} (d : List (String × α)) (k : String) (v : α) :
    (dictSet d k v).lookup k = some v := by
  unfold dictSet
  split
  · next h => exact lookup_map_set d k v h
  · next h =>
    rw [lookup_append_single]
    rw [Option.not_isSome_iff_eq_none.mp (fun hs => h hs)]
    rfl

theorem lookup_dictSet_ne {α : Type} (d : List (String × α)) (k k' : String) (v : α)
    (hne : k' ≠ k) : (dictSet d k v).lookup k' = d.lookup k' := by
  unfold dictSet
  split
  · exact lookup_map_set_ne d k k' v hne
  · exact lookup_append_single_ne d k k' v hne

/-- A concrete classifier returning constant class probabilities `(1/4, 3/4)`,
standing in for a fitted random-forest object. -/
def clsA : Classifier := ⟨fun _ => (1/4, 3/4)⟩

/-- A concrete classifier returning constant class probabilities `(2/5, 3/5)`,
standing in for a fitted logistic-regression object. -/
def clsB : Classifier := ⟨fun _ => (2/5, 3/5)⟩

/-- A concrete already-trained scaler state with all-zero variances. -/
def sampleScaler : StandardScaler :=
  ⟨List.replicate nFeatureCols 0, List.replicate nFeatureCols 0⟩

/-- A concrete previously-trained engine state. -/
def sampleEngine : MLEngine :=
  { models :=
      [("random_forest", ⟨clsA, some 1, "Random Forest"⟩),
        ("logistic_regression", ⟨clsB, some 1, "Logistic Regression"⟩)]
    label_encoders := [("food_category", LabelEncoder.fit ["dairy", "veggie"])]
    scaler := sampleScaler
    is_trained := true }

/-- A concrete numeric feature row. -/
def sampleRow : FeatureRow :=
  { meal_hour := 12, meal_day_of_week := 3, has_quantity := 1, quantity := 2
    has_notes := 0, has_ingredients := 1, has_dairy := 1, has_gluten := 0
    has_spicy := 0, has_allergens := 0, allergen_count := 0
    days_since_epoch := 20000 }

/-- A concrete prediction request whose category was seen at fit time. -/
def sampleMF : MealFeatures := { food_category := "dairy", row := sampleRow }

/-- A concrete prediction request whose category was never seen at fit time. -/
def unseenMF : MealFeatures := { food_category := "sushi", row := sampleRow }

/-- The scenario meal of spec §8: ingredients text
"Whole wheat flour, water, yeast". -/
def wheatMeal : Meal :=
  { id := 1
    food :=
      { category := "grain"
        ingredients := some "Whole wheat flour, water, yeast"
        allergens := none }
    meal_time := ⟨8, 2, 20000⟩
    quantity := some 1
    notes := none }

/-! ### Claim theorems -/

/-- C3: for every feature vector, if the bundle's trained flag is false then
prediction returns the "model not trained" result (a returned dict, not an
exception) with confidence 0, and the category-specific recommendation rules
are not evaluated: the result is one fixed constant, independent of the input
features, with the fixed fallback recommendation text. -/
theorem C3_untrained_prediction (e : MLEngine) (mf : MealFeatures)
    (h : e.is_trained = false) :
    predict_symptoms e mf = .ok notTrainedResult ∧
    notTrainedResult.confidence = 0 ∧
    notTrainedResult.recommendation = "Need more data to make predictions" ∧
    ∀ mf' : MealFeatures, predict_symptoms e mf' = predict_symptoms e mf := by
  refine ⟨?_, rfl, rfl, ?_⟩
  · unfold predict_symptoms
    rw [h]
    simp
  · intro mf'
    unfold predict_symptoms
    rw [h]
    simp

/-- Witness for C3 at the freshly initialised engine. -/
theorem C3_untrained_prediction_witness :
    predict_symptoms MLEngine.init sampleMF = .ok notTrainedResult ∧
    notTrainedResult.confidence = 0 ∧
    notTrainedResult.recommendation = "Need more data to make predictions" ∧
    ∀ mf' : MealFeatures,
      predict_symptoms MLEngine.init mf' = predict_symptoms MLEngine.init sampleMF :=
  C3_untrained_prediction MLEngine.init sampleMF rfl

/-- Spec-side predicate (spec §4.1): some keyword of `words` (the spec's
keyword sets are given in lowercase) occurs as a substring of the lowercased
ingredients text — the case-insensitive substring match, expressed as an
explicit decomposition. -/
def keywordHit (words : List String) (text : String) : Prop :=
  ∃ w ∈ words, ∃ l r : List Char, l ++ w.data ++ r = lowerChars text.data

theorem startsWithChars_iff (w s : List Char) :
    startsWithChars w s = true ↔ ∃ r, w ++ r = s := by
  induction w generalizing s with
  | nil => simp [startsWithChars]
  | cons a w ih =>
    cases s with
    | nil => simp [startsWithChars]
    | cons b s =>
      simp only [startsWithChars, Bool.and_eq_true, beq_iff_eq, ih]
      constructor
      · rintro ⟨rfl, r, rfl⟩
        exact ⟨r, rfl⟩
      · rintro ⟨r, hr⟩
        injection hr with h1 h2
        exact ⟨h1, r, h2⟩

theorem containsChars_iff (w s : List Char) :
    containsChars w s = true ↔ ∃ l r, l ++ w ++ r = s := by
  induction s with
  | nil =>
    simp only [containsChars, List.isEmpty_iff]
    constructor
    · rintro rfl
      exact ⟨[], [], rfl⟩
    · rintro ⟨l, r, h⟩
      rcases List.append_eq_nil.mp h with ⟨h1, h2⟩
      exact (List.append_eq_nil.mp h1).2
  | cons b s ih =>
    simp only [containsChars, Bool.or_eq_true, startsWithChars_iff, ih]
    constructor
    · rintro (⟨r, hr⟩ | ⟨l, r, hr⟩)
      · exact ⟨[], r, by simpa using hr⟩
      · exact ⟨b :: l, r, by simp [hr]⟩
    · rintro ⟨l, r, hr⟩
      cases l with
      | nil =>
        left
        exact ⟨r, by simpa using hr⟩
      | cons c l =>
        right
        injection hr with h1 h2
        exact ⟨l, r, h2⟩

/-- C9: for every meal, `has_dairy`/`has_gluten`/`has_spicy` are 0/1 values
equal to 1 exactly when the (present, non-empty) ingredients text contains a
keyword of the respective fixed set under case-insensitive substring match;
in particular the meal with ingredients "Whole wheat flour, water, yeast"
gets `has_gluten = 1` and `has_dairy = 0`. -/
theorem anyWordIn_eq_one_iff (words : List String) (t : List Char) :
    anyWordIn words t = 1 ↔ ∃ w ∈ words, ∃ l r : List Char, l ++ w.data ++ r = t := by
  unfold anyWordIn
  split
  · next hc =>
    simp only [List.any_eq_true] at hc
    obtain ⟨w, hw, hcw⟩ := hc
    obtain ⟨l, r, hlr⟩ := (containsChars_iff _ _).mp hcw
    exact ⟨fun _ => ⟨w, hw, l, r, hlr⟩, fun _ => rfl⟩
  · next hc =>
    constructor
    · intro h
      exact absurd h (by simp)
    · rintro ⟨w, hw, l, r, hlr⟩
      exact absurd (List.any_eq_true.mpr ⟨w, hw, (containsChars_iff _ _).mpr ⟨l, r, hlr⟩⟩) hc

theorem anyWordIn_zero_or_one (words : List String) (t : List Char) :
    anyWordIn words t = 0 ∨ anyWordIn words t = 1 := by
  unfold anyWordIn
  split
  · right; rfl
  · left; rfl

theorem C9_ingredient_features :
    (∀ m : Meal,
      ((mealFeatureRow m).has_dairy = 0 ∨ (mealFeatureRow m).has_dairy = 1) ∧
      ((mealFeatureRow m).has_gluten = 0 ∨ (mealFeatureRow m).has_gluten = 1) ∧
      ((mealFeatureRow m).has_spicy = 0 ∨ (mealFeatureRow m).has_spicy = 1) ∧
      ((mealFeatureRow m).has_dairy = 1 ↔
        strTruthy m.food.ingredients = true ∧
          keywordHit dairyWords (m.food.ingredients.getD "")) ∧
      ((mealFeatureRow m).has_gluten = 1 ↔
        strTruthy m.food.ingredients = true ∧
          keywordHit glutenWords (m.food.ingredients.getD "")) ∧
      ((mealFeatureRow m).has_spicy = 1 ↔
        strTruthy m.food.ingredients = true ∧
          keywordHit spicyWords (m.food.ingredients.getD ""))) ∧
    (mealFeatureRow wheatMeal).has_gluten = 1 ∧
    (mealFeatureRow wheatMeal).has_dairy = 0 := by
  refine ⟨fun m => ?_, by decide, by decide⟩
  unfold mealFeatureRow
  by_cases ht : strTruthy m.food.ingredients = true
  · simp only [ht, if_true]
    refine ⟨anyWordIn_zero_or_one _ _, anyWordIn_zero_or_one _ _,
      anyWordIn_zero_or_one _ _, ?_, ?_, ?_⟩ <;>
      · rw [anyWordIn_eq_one_iff]
        simp [keywordHit]
  · have ht' : strTruthy m.food.ingredients = false := by
      cases hv : strTruthy m.food.ingredients
      · rfl
      · exact absurd hv ht
    simp [ht']

/-- C6: for every trained bundle and successfully encoded feature vector, the
predicted label is "Likely to cause symptoms" iff the average of the two
classifiers' class-1 probabilities exceeds 1/2, and the reported confidence
is the maximum of the two class probabilities of the averaged
distribution. -/
theorem C6_ensemble_rule (e : MLEngine) (mf : MealFeatures) (le : LabelEncoder)
    (code : ℕ) (rfi lri : ModelInfo)
    (h1 : e.is_trained = true)
    (h2 : e.label_encoders.lookup "food_category" = some le)
    (h3 : le.transform mf.food_category = some code)
    (h4 : e.models.lookup "random_forest" = some rfi)
    (h5 : e.models.lookup "logistic_regression" = some lri) :
    ∃ r : PredictionResult,
      predict_symptoms e mf = .ok r ∧
      (r.prediction = "Likely to cause symptoms" ↔
        ((rfi.model.predictProba (e.scaler.transform (encodedRow code mf.row))).2 +
            (lri.model.predictProba (e.scaler.transform (encodedRow code mf.row))).2) / 2
          > 1 / 2) ∧
      r.confidence =
        max
          (((rfi.model.predictProba (e.scaler.transform (encodedRow code mf.row))).1 +
              (lri.model.predictProba (e.scaler.transform (encodedRow code mf.row))).1) / 2)
          (((rfi.model.predictProba (e.scaler.transform (encodedRow code mf.row))).2 +
              (lri.model.predictProba (e.scaler.transform (encodedRow code mf.row))).2) / 2) := by
  unfold predict_symptoms
  rw [if_neg (show ¬ (e.is_trained = false) by simp [h1])]
  simp only [h2, h3, h4, h5]
  refine ⟨_, rfl, ?_, ?_⟩
  · by_cases hc :
        ((rfi.model.predictProba (e.scaler.transform (encodedRow code mf.row))).2 +
            (lri.model.predictProba (e.scaler.transform (encodedRow code mf.row))).2) / 2
          > 1 / 2
    · simp only [gt_iff_lt] at hc
      simp [hc]
    · have hc' : ¬ (1 / 2 : ℚ) <
          ((rfi.model.predictProba (e.scaler.transform (encodedRow code mf.row))).2 +
              (lri.model.predictProba (e.scaler.transform (encodedRow code mf.row))).2) / 2 := by
        simpa using hc
      simp only [if_neg hc']
      constructor
      · intro h
        exact absurd h (by decide)
      · intro h
        exact absurd h hc
  · simp [sup_eq_max]

/-- Witness for C6 at a concrete trained engine and request. -/
theorem C6_ensemble_rule_witness :
    ∃ r : PredictionResult,
      predict_symptoms sampleEngine sampleMF = .ok r ∧
      (r.prediction = "Likely to cause symptoms" ↔
        ((clsA.predictProba (sampleEngine.scaler.transform (encodedRow 0 sampleMF.row))).2 +
            (clsB.predictProba (sampleEngine.scaler.transform (encodedRow 0 sampleMF.row))).2) / 2
          > 1 / 2) ∧
      r.confidence =
        max
          (((clsA.predictProba (sampleEngine.scaler.transform (encodedRow 0 sampleMF.row))).1 +
              (clsB.predictProba (sampleEngine.scaler.transform (encodedRow 0 sampleMF.row))).1) / 2)
          (((clsA.predictProba (sampleEngine.scaler.transform (encodedRow 0 sampleMF.row))).2 +
              (clsB.predictProba (sampleEngine.scaler.transform (encodedRow 0 sampleMF.row))).2) / 2) :=
  C6_ensemble_rule sampleEngine sampleMF (LabelEncoder.fit ["dairy", "veggie"]) 0
    ⟨clsA, some 1, "Random Forest"⟩ ⟨clsB, some 1, "Logistic Regression"⟩
    rfl rfl (by decide) rfl rfl

theorem max_prob_bounds (a b : ℚ) (h : a + b = 1) (ha : 0 ≤ a) (hb : 0 ≤ b) :
    1 / 2 ≤ max a b ∧ max a b ≤ 1 := by
  rcases le_total a b with hab | hab
  · rw [max_eq_right hab]
    constructor <;> linarith
  · rw [max_eq_left hab]
    constructor <;> linarith

/-- C10: whenever the bundle is trained and both classifiers return valid
two-class probability distributions (non-negative entries summing to 1), the
ensemble confidence and each per-model sub-prediction confidence lie in
[1/2, 1]. -/
theorem C10_confidence_bounds (e : MLEngine) (mf : MealFeatures) (le : LabelEncoder)
    (code : ℕ) (rfi lri : ModelInfo)
    (h1 : e.is_trained = true)
    (h2 : e.label_encoders.lookup "food_category" = some le)
    (h3 : le.transform mf.food_category = some code)
    (h4 : e.models.lookup "random_forest" = some rfi)
    (h5 : e.models.lookup "logistic_regression" = some lri)
    (hr0 : 0 ≤ (rfi.model.predictProba (e.scaler.transform (encodedRow code mf.row))).1)
    (hr1 : 0 ≤ (rfi.model.predictProba (e.scaler.transform (encodedRow code mf.row))).2)
    (hrs : (rfi.model.predictProba (e.scaler.transform (encodedRow code mf.row))).1 +
      (rfi.model.predictProba (e.scaler.transform (encodedRow code mf.row))).2 = 1)
    (hl0 : 0 ≤ (lri.model.predictProba (e.scaler.transform (encodedRow code mf.row))).1)
    (hl1 : 0 ≤ (lri.model.predictProba (e.scaler.transform (encodedRow code mf.row))).2)
    (hls : (lri.model.predictProba (e.scaler.transform (encodedRow code mf.row))).1 +
      (lri.model.predictProba (e.scaler.transform (encodedRow code mf.row))).2 = 1) :
    ∃ (r : PredictionResult) (s1 s2 : SubPrediction),
      predict_symptoms e mf = .ok r ∧
      r.model_details = some (s1, s2) ∧
      1 / 2 ≤ r.confidence ∧ r.confidence ≤ 1 ∧
      1 / 2 ≤ s1.confidence ∧ s1.confidence ≤ 1 ∧
      1 / 2 ≤ s2.confidence ∧ s2.confidence ≤ 1 := by
  unfold predict_symptoms
  rw [if_neg (show ¬ (e.is_trained = false) by simp [h1])]
  simp only [h2, h3, h4, h5]
  refine ⟨_, _, _, rfl, rfl, ?_, ?_, ?_, ?_, ?_, ?_⟩
  · have := max_prob_bounds _ _ (by linarith : ((rfi.model.predictProba
        (e.scaler.transform (encodedRow code mf.row))).1 +
        (lri.model.predictProba (e.scaler.transform (encodedRow code mf.row))).1) / 2 +
        ((rfi.model.predictProba (e.scaler.transform (encodedRow code mf.row))).2 +
        (lri.model.predictProba (e.scaler.transform (encodedRow code mf.row))).2) / 2 = 1)
      (by linarith) (by linarith)
    simpa [sup_eq_max] using this.1
  · have := max_prob_bounds _ _ (by linarith : ((rfi.model.predictProba
        (e.scaler.transform (encodedRow code mf.row))).1 +
        (lri.model.predictProba (e.scaler.transform (encodedRow code mf.row))).1) / 2 +
        ((rfi.model.predictProba (e.scaler.transform (encodedRow code mf.row))).2 +
        (lri.model.predictProba (e.scaler.transform (encodedRow code mf.row))).2) / 2 = 1)
      (by linarith) (by linarith)
    simpa [sup_eq_max] using this.2
  · simpa [sup_eq_max] using (max_prob_bounds _ _ hrs hr0 hr1).1
  · simpa [sup_eq_max] using (max_prob_bounds _ _ hrs hr0 hr1).2
  · simpa [sup_eq_max] using (max_prob_bounds _ _ hls hl0 hl1).1
  · simpa [sup_eq_max] using (max_prob_bounds _ _ hls hl0 hl1).2

/-- Witness for C10 at a concrete trained engine and request. -/
theorem C10_confidence_bounds_witness :
    ∃ (r : PredictionResult) (s1 s2 : SubPrediction),
      predict_symptoms sampleEngine sampleMF = .ok r ∧
      r.model_details = some (s1, s2) ∧
      1 / 2 ≤ r.confidence ∧ r.confidence ≤ 1 ∧
      1 / 2 ≤ s1.confidence ∧ s1.confidence ≤ 1 ∧
      1 / 2 ≤ s2.confidence ∧ s2.confidence ≤ 1 :=
  C10_confidence_bounds sampleEngine sampleMF (LabelEncoder.fit ["dairy", "veggie"]) 0
    ⟨clsA, some 1, "Random Forest"⟩ ⟨clsB, some 1, "Logistic Regression"⟩
    rfl rfl (by decide) rfl rfl
    (by norm_num [clsA]) (by norm_num [clsA]) (by norm_num [clsA])
    (by norm_num [clsB]) (by norm_num [clsB]) (by norm_num [clsB])

/-- C2 counterexample: on a trained engine whose encoder saw only "dairy" and
"veggie", requesting a prediction for the unseen category "sushi" makes
`predict_symptoms` raise sklearn's `ValueError` (an exception escaping the
engine boundary), rather than returning an `UnseenCategory` result variant. -/
theorem C2_unseen_category_counterexample :
    predict_symptoms sampleEngine unseenMF = .raised .valueError ∧
    ∀ r : PredictionResult, predict_symptoms sampleEngine unseenMF ≠ .ok r := by
  constructor
  · rfl
  · intro r h
    rw [show predict_symptoms sampleEngine unseenMF = .raised .valueError from rfl] at h
    exact PredictOutcome.noConfusion h

/-- C2 amended: a category unseen at fit time never silently receives a code
(the encoder yields no code for it), and `predict_symptoms` raises the
`ValueError` — the condition escapes the engine as an exception, not as an
explicit result variant. -/
theorem C2_unseen_category_raises (e : MLEngine) (mf : MealFeatures) (le : LabelEncoder)
    (h1 : e.is_trained = true)
    (h2 : e.label_encoders.lookup "food_category" = some le)
    (h3 : mf.food_category ∉ le.classes) :
    le.transform mf.food_category = none ∧
    predict_symptoms e mf = .raised .valueError := by
  have ht : le.transform mf.food_category = none := by
    unfold LabelEncoder.transform
    rw [if_neg h3]
  refine ⟨ht, ?_⟩
  unfold predict_symptoms
  rw [if_neg (show ¬ (e.is_trained = false) by simp [h1])]
  simp only [h2, ht]

/-- Witness for the amended C2 at a concrete trained engine and request. -/
theorem C2_unseen_category_raises_witness :
    (LabelEncoder.fit ["dairy", "veggie"]).transform unseenMF.food_category = none ∧
    predict_symptoms sampleEngine unseenMF = .raised .valueError :=
  C2_unseen_category_raises sampleEngine unseenMF (LabelEncoder.fit ["dairy", "veggie"])
    rfl rfl (by decide)

theorem charListLe_total (a : List Char) :
    ∀ b, charListLe a b = true ∨ charListLe b a = true := by
  induction a with
  | nil =>
    intro b
    left
    rfl
  | cons x as ih =>
    intro b
    cases b with
    | nil =>
      right
      rfl
    | cons y bs =>
      by_cases hxy : x < y
      · left
        simp [charListLe, hxy]
      · by_cases hyx : y < x
        · right
          simp [charListLe, hyx]
        · rcases ih bs with h | h
          · left
            simp [charListLe, hxy, hyx, h]
          · right
            simp [charListLe, hxy, hyx, h]

theorem charListLe_trans (a : List Char) :
    ∀ b c, charListLe a b = true → charListLe b c = true → charListLe a c = true := by
  induction a with
  | nil =>
    intro b c _ _
    rfl
  | cons x as ih =>
    intro b c hab hbc
    cases b with
    | nil => simp [charListLe] at hab
    | cons y bs =>
      cases c with
      | nil => simp [charListLe] at hbc
      | cons z cs =>
        by_cases hxy : x < y
        · by_cases hyz : y < z
          · simp [charListLe, lt_trans hxy hyz]
          · by_cases hzy : z < y
            · simp [charListLe, hyz, hzy] at hbc
            · have hyz' : y = z := le_antisymm (not_lt.mp hzy) (not_lt.mp hyz)
              subst hyz'
              simp [charListLe, hxy]
        · by_cases hyx : y < x
          · simp [charListLe, hxy, hyx] at hab
          · have hxy' : x = y := le_antisymm (not_lt.mp hyx) (not_lt.mp hxy)
            subst hxy'
            simp only [charListLe, if_neg (lt_irrefl x), if_true] at hab
            by_cases hxz : x < z
            · simp [charListLe, hxz]
            · by_cases hzx : z < x
              · simp [charListLe, hxz, hzx] at hbc
              · simp only [charListLe, if_neg hxz, if_neg hzx] at hbc ⊢
                exact ih bs cs hab hbc

theorem charListLe_antisymm (a : List Char) :
    ∀ b, charListLe a b = true → charListLe b a = true → a = b := by
  induction a with
  | nil =>
    intro b _ hba
    cases b with
    | nil => rfl
    | cons y bs => simp [charListLe] at hba
  | cons x as ih =>
    intro b hab hba
    cases b with
    | nil => simp [charListLe] at hab
    | cons y bs =>
      by_cases hxy : x < y
      · simp [charListLe, asymm hxy, hxy] at hba
      · by_cases hyx : y < x
        · simp [charListLe, hxy, hyx] at hab
        · have hxy' : x = y := le_antisymm (not_lt.mp hyx) (not_lt.mp hxy)
          subst hxy'
          simp only [charListLe, if_neg (lt_irrefl x), if_true] at hab hba
          rw [ih bs hab hba]

theorem strLe_antisymm (a b : String) (h1 : strLe a b) (h2 : strLe b a) : a = b := by
  cases a with
  | mk da =>
    cases b with
    | mk db =>
      have := charListLe_antisymm da db h1 h2
      rw [this]

instance : IsTotal String strLe := ⟨fun a b => charListLe_total a.data b.data⟩

instance : IsTrans String strLe := ⟨fun a b c => charListLe_trans a.data b.data c.data⟩

theorem mem_fit_classes (values : List String) (v : String) (hv : v ∈ values) :
    v ∈ (LabelEncoder.fit values).classes := by
  unfold LabelEncoder.fit
  simp [List.mem_insertionSort, List.mem_dedup, hv]

theorem fit_classes_sorted (values : List String) :
    List.Sorted strLe (LabelEncoder.fit values).classes :=
  List.sorted_insertionSort strLe values.dedup

theorem fit_classes_nodup (values : List String) :
    (LabelEncoder.fit values).classes.Nodup :=
  ((List.perm_insertionSort strLe values.dedup).nodup_iff).mpr (List.nodup_dedup values)

/-- C7 counterexample: fitting on the sequence ["veggie", "dairy"] assigns
"veggie" (the first-seen value) the code 1, not 0: codes follow sorted order,
not first-seen order. -/
theorem C7_first_seen_counterexample :
    (LabelEncoder.fit ["veggie", "dairy"]).transform "veggie" = some 1 ∧
    firstSeenCode ["veggie", "dairy"] "veggie" = some 0 := by
  constructor
  · rfl
  · rfl

/-- C7 amended: the encoder assigns each distinct fitted value a unique
integer code equal to its rank in the SORTED (code-point lexicographic) order
of the distinct values — not first-seen order — and the mapping is frozen:
`fit_transform` returns exactly the codes `transform` yields thereafter. -/
theorem C7_sorted_unique_frozen_codes (values : List String) (v w : String)
    (hv : v ∈ values) (hw : w ∈ values) (hvw : v ≠ w) :
    (∃ i, (LabelEncoder.fit values).transform v = some i) ∧
    (LabelEncoder.fit values).transform v ≠ (LabelEncoder.fit values).transform w ∧
    (strLe v w →
      ∃ i j, (LabelEncoder.fit values).transform v = some i ∧
        (LabelEncoder.fit values).transform w = some j ∧ i < j) ∧
    (LabelEncoder.fit_transform values).2 =
      values.map (fun u => ((LabelEncoder.fit values).transform u).getD 0) := by
  have hv' : v ∈ (LabelEncoder.fit values).classes := mem_fit_classes values v hv
  have hw' : w ∈ (LabelEncoder.fit values).classes := mem_fit_classes values w hw
  refine ⟨⟨(LabelEncoder.fit values).classes.indexOf v, ?_⟩, ?_, ?_, ?_⟩
  · unfold LabelEncoder.transform
    rw [if_pos hv']
  · unfold LabelEncoder.transform
    rw [if_pos hv', if_pos hw']
    intro h
    exact hvw ((List.indexOf_inj hv' hw').mp (Option.some.inj h))
  · intro hle
    refine ⟨(LabelEncoder.fit values).classes.indexOf v,
      (LabelEncoder.fit values).classes.indexOf w, ?_, ?_, ?_⟩
    · unfold LabelEncoder.transform
      rw [if_pos hv']
    · unfold LabelEncoder.transform
      rw [if_pos hw']
    · have hiv : (LabelEncoder.fit values).classes.indexOf v <
          (LabelEncoder.fit values).classes.length := List.indexOf_lt_length.mpr hv'
      have hjw : (LabelEncoder.fit values).classes.indexOf w <
          (LabelEncoder.fit values).classes.length := List.indexOf_lt_length.mpr hw'
      rcases lt_trichotomy ((LabelEncoder.fit values).classes.indexOf v)
          ((LabelEncoder.fit values).classes.indexOf w) with h | h | h
      · exact h
      · exact absurd ((List.indexOf_inj hv' hw').mp h) hvw
      · exfalso
        have hs := (fit_classes_sorted values).rel_get_of_lt
          (a := ⟨(LabelEncoder.fit values).classes.indexOf w, hjw⟩)
          (b := ⟨(LabelEncoder.fit values).classes.indexOf v, hiv⟩)
          (Fin.mk_lt_mk.mpr h)
        rw [List.indexOf_get hjw, List.indexOf_get hiv] at hs
        exact hvw (strLe_antisymm v w hle hs)
  · unfold LabelEncoder.fit_transform
    apply List.map_congr_left
    intro u hu
    have hu' : u ∈ (LabelEncoder.fit values).classes := mem_fit_classes values u hu
    unfold LabelEncoder.transform
    rw [if_pos hu']
    rfl

/-- Witness for the amended C7 on a concrete fit sequence. -/
theorem C7_sorted_unique_frozen_codes_witness :
    (∃ i, (LabelEncoder.fit ["veggie", "dairy"]).transform "dairy" = some i) ∧
    (LabelEncoder.fit ["veggie", "dairy"]).transform "dairy" ≠
      (LabelEncoder.fit ["veggie", "dairy"]).transform "veggie" ∧
    (strLe "dairy" "veggie" →
      ∃ i j, (LabelEncoder.fit ["veggie", "dairy"]).transform "dairy" = some i ∧
        (LabelEncoder.fit ["veggie", "dairy"]).transform "veggie" = some j ∧ i < j) ∧
    (LabelEncoder.fit_transform ["veggie", "dairy"]).2 =
      ["veggie", "dairy"].map
        (fun u => ((LabelEncoder.fit ["veggie", "dairy"]).transform u).getD 0) :=
  C7_sorted_unique_frozen_codes ["veggie", "dairy"] "dairy" "veggie"
    (by decide) (by decide) (by decide)

/-- A fixed classifier-fitting parameter used in concrete training runs. -/
def constFit : List (List ℝ) → List ℕ → Classifier := fun _ _ => clsA

/-- C1 counterexample: a training request over a single meal (fewer than the
minimum of 10 labeled examples) on a previously trained engine returns
failure, yet the label-encoder table has been overwritten by the refit in
`prepare_features` — the previously trained bundle is NOT left exactly as it
was. -/
theorem C1_insufficient_data_counterexample :
    (trainRequest sampleEngine Disk.empty constFit constFit [wheatMeal] []).2.2 = false ∧
    (trainRequest sampleEngine Disk.empty constFit constFit [wheatMeal] []).1.label_encoders ≠
      sampleEngine.label_encoders := by
  constructor
  · rfl
  · intro h
    have h2 : (LabelEncoder.fit ["grain"]) = LabelEncoder.fit ["dairy", "veggie"] := by
      have := congrArg (fun d => d.lookup "food_category") h
      simpa [trainRequest, prepare_features, train_models, sampleEngine, wheatMeal,
        dictSet, lookup_cons_eq] using this
    have : (LabelEncoder.fit ["grain"]).classes = ["grain"] := by decide
    rw [h2] at this
    exact absurd this (by decide)

/-- C1 amended: for every engine, disk and dataset of fewer than 10 meals,
the training request returns failure and leaves the models dictionary, the
fitted scaler, the trained flag and the persisted artifacts unchanged; the
label-encoder table is preserved when the meal list is empty, but for a
non-empty (still insufficient) meal list `prepare_features` refits and
overwrites the `food_category` encoder before `train_models` rejects the
dataset. -/
theorem C1_insufficient_data_preserves (e : MLEngine) (d : Disk)
    (fitRF fitLR : List (List ℝ) → List ℕ → Classifier)
    (meals : List Meal) (symptoms : List Symptom)
    (h : meals.length < 10) :
    (trainRequest e d fitRF fitLR meals symptoms).2.2 = false ∧
    (trainRequest e d fitRF fitLR meals symptoms).1.models = e.models ∧
    (trainRequest e d fitRF fitLR meals symptoms).1.scaler = e.scaler ∧
    (trainRequest e d fitRF fitLR meals symptoms).1.is_trained = e.is_trained ∧
    (trainRequest e d fitRF fitLR meals symptoms).2.1 = d ∧
    (meals = [] →
      (trainRequest e d fitRF fitLR meals symptoms).1.label_encoders = e.label_encoders) ∧
    (meals ≠ [] →
      (trainRequest e d fitRF fitLR meals symptoms).1.label_encoders =
        dictSet e.label_encoders "food_category"
          (LabelEncoder.fit (meals.map fun m => m.food.category))) := by
  by_cases hm : meals = []
  · subst hm
    refine ⟨rfl, rfl, rfl, rfl, rfl, fun _ => rfl, fun hne => absurd rfl hne⟩
  · unfold trainRequest
    unfold prepare_features
    rw [if_neg hm]
    simp only [train_models, List.length_map, if_pos h]
    refine ⟨by trivial, by trivial, by trivial, by trivial, by trivial,
      fun he => absurd he hm, fun _ => by trivial⟩

/-- Witness for the amended C1 at a concrete engine and one-meal dataset. -/
theorem C1_insufficient_data_preserves_witness :
    (trainRequest sampleEngine Disk.empty constFit constFit [wheatMeal] []).2.2 = false ∧
    (trainRequest sampleEngine Disk.empty constFit constFit [wheatMeal] []).1.models =
      sampleEngine.models ∧
    (trainRequest sampleEngine Disk.empty constFit constFit [wheatMeal] []).1.scaler =
      sampleEngine.scaler ∧
    (trainRequest sampleEngine Disk.empty constFit constFit [wheatMeal] []).1.is_trained =
      sampleEngine.is_trained ∧
    (trainRequest sampleEngine Disk.empty constFit constFit [wheatMeal] []).2.1 = Disk.empty ∧
    (([wheatMeal] : List Meal) = [] →
      (trainRequest sampleEngine Disk.empty constFit constFit [wheatMeal] []).1.label_encoders =
        sampleEngine.label_encoders) ∧
    (([wheatMeal] : List Meal) ≠ [] →
      (trainRequest sampleEngine Disk.empty constFit constFit [wheatMeal] []).1.label_encoders =
        dictSet sampleEngine.label_encoders "food_category"
          (LabelEncoder.fit (([wheatMeal] : List Meal).map fun m => m.food.category))) :=
  C1_insufficient_data_preserves sampleEngine Disk.empty constFit constFit [wheatMeal] []
    (by decide)

theorem colVar_nonneg (xs : List ℚ) : 0 ≤ colVar xs := by
  unfold colVar
  apply div_nonneg
  · apply List.sum_nonneg
    intro x hx
    obtain ⟨y, _, rfl⟩ := List.mem_map.mp hx
    exact sq_nonneg _
  · exact Nat.cast_nonneg _

theorem scaleOf_ne_zero (v : ℚ) (hv : 0 ≤ v) : scaleOf v ≠ 0 := by
  unfold scaleOf
  split
  · exact one_ne_zero
  · next hne =>
    have hpos : (0 : ℝ) < (v : ℝ) := by
      exact_mod_cast lt_of_le_of_ne hv (fun he => hne he.symm)
    exact ne_of_gt (Real.sqrt_pos.mpr hpos)

/-- C8 counterexample: fit on a column whose two training values are both 5
(zero variance); transforming the vector [7] outputs [2], not [0] — the
zero-variance field is not treated as "output 0" on arbitrary inputs. -/
theorem C8_zero_variance_counterexample :
    (StandardScaler.fit [[5], [5]] 1).transform [7] = [2] ∧
    (StandardScaler.fit [[5], [5]] 1).transform [7] ≠ [0] := by
  have hm : colMean [(5 : ℚ), 5] = 5 := by
    unfold colMean
    norm_num
  have hvv : colVar [(5 : ℚ), 5] = 0 := by
    unfold colVar
    rw [hm]
    norm_num
  have ht : (StandardScaler.fit [[5], [5]] 1).transform [7] = [2] := by
    unfold StandardScaler.fit StandardScaler.transform
    simp only [List.range_succ, List.range_zero, List.nil_append, List.map_cons,
      List.map_nil, List.getD]
    norm_num [hm, hvv, scaleOf]
  refine ⟨ht, ?_⟩
  rw [ht]
  intro h
  have h2 : (2 : ℝ) = 0 := List.head_eq_of_cons_eq h
  norm_num at h2

/-- C8 amended: the scaler never divides by zero (every fitted variance has a
nonzero scale, a zero variance being replaced by scale 1), and for a
zero-variance field the transform outputs `x - mean` — which is 0 exactly
when the input value equals the training-time constant, not for every
vector. -/
theorem C8_zero_variance_behavior (s : StandardScaler) (row : List ℚ) (j : ℕ)
    (h1 : j < row.length) (h2 : j < s.mean.length) (h3 : j < s.var.length)
    (hvar : s.var.getD j 0 = 0)
    (rows : List (List ℚ)) (n : ℕ) (v : ℚ)
    (hv : v ∈ (StandardScaler.fit rows n).var) :
    scaleOf v ≠ 0 ∧
    (s.transform row).getD j 0 = ((row.getD j 0 : ℚ) : ℝ) - ((s.mean.getD j 0 : ℚ) : ℝ) ∧
    ((s.transform row).getD j 0 = 0 ↔ row.getD j 0 = s.mean.getD j 0) := by
  have hv0 : 0 ≤ v := by
    unfold StandardScaler.fit at hv
    simp only [List.mem_map] at hv
    obtain ⟨i, _, rfl⟩ := hv
    exact colVar_nonneg _
  have hlen : j < (s.transform row).length := by
    unfold StandardScaler.transform
    rw [List.length_map, List.length_zip, List.length_zip]
    exact lt_min h1 (lt_min h2 h3)
  have hval : (s.transform row).getD j 0 =
      ((row.getD j 0 : ℚ) : ℝ) - ((s.mean.getD j 0 : ℚ) : ℝ) := by
    rw [List.getD_eq_getElem _ _ hlen, List.getD_eq_getElem _ _ h1,
      List.getD_eq_getElem _ _ h2]
    have hvg : s.var.getD j 0 = s.var[j] := List.getD_eq_getElem _ _ h3
    rw [hvg] at hvar
    unfold StandardScaler.transform
    simp [List.getElem_map, List.getElem_zip, hvar, scaleOf]
  refine ⟨scaleOf_ne_zero v hv0, hval, ?_⟩
  rw [hval]
  rw [sub_eq_zero]
  exact_mod_cast Iff.rfl

/-- Witness for the amended C8 at a concrete fitted scaler and vector. -/
theorem C8_zero_variance_behavior_witness :
    scaleOf 0 ≠ 0 ∧
    ((⟨[5], [0]⟩ : StandardScaler).transform [7]).getD 0 0 =
      (((7 : ℚ) : ℝ)) - (((5 : ℚ) : ℝ)) ∧
    (((⟨[5], [0]⟩ : StandardScaler).transform [7]).getD 0 0 = 0 ↔
      ([(7 : ℚ)].getD 0 0 = [(5 : ℚ)].getD 0 0)) :=
  C8_zero_variance_behavior ⟨[5], [0]⟩ [7] 0
    (by decide) (by decide) (by decide) rfl
    [[5], [5]] 1 0
    (by
      unfold StandardScaler.fit
      simp only [List.range_succ, List.range_zero, List.nil_append, List.map_cons,
        List.map_nil, List.mem_singleton]
      unfold colVar colMean
      norm_num)

/-- A model directory holding the random-forest, scaler and encoder artifacts
but missing the logistic-regression artifact. -/
def diskMissingLr : Disk :=
  { random_forest := some clsA
    logistic_regression := none
    scaler := some sampleScaler
    encoders := some [("food_category", LabelEncoder.fit ["dairy"])] }

/-- C4 counterexample: loading from a directory whose logistic-regression
artifact is missing (scaler and encoder artifacts present) yields a bundle
marked TRAINED with only the random-forest classifier installed — a partially
populated state, not an untrained bundle. -/
theorem C4_partial_load_counterexample :
    (load_models MLEngine.init diskMissingLr).1.is_trained = true ∧
    ((load_models MLEngine.init diskMissingLr).1.models.lookup "random_forest").isSome = true ∧
    (load_models MLEngine.init diskMissingLr).1.models.lookup "logistic_regression" = none := by
  exact ⟨rfl, rfl, rfl⟩

/-- C4 amended: `load_models` never raises for absent artifacts (it is a
total function on the directory state); it installs each classifier artifact
that is present, independently of the other, and marks the bundle trained iff
the scaler and encoder artifacts are both present, regardless of the
classifier artifacts — so a partially populated state is possible. -/
theorem C4_load_characterisation (e : MLEngine) (d : Disk) :
    ((load_models e d).2 = true ↔ d.scaler.isSome = true ∧ d.encoders.isSome = true) ∧
    ((load_models e d).1.is_trained =
      (e.is_trained || (d.scaler.isSome && d.encoders.isSome))) ∧
    (d.random_forest = none →
      (load_models e d).1.models.lookup "random_forest" =
        e.models.lookup "random_forest") ∧
    (∀ c, d.random_forest = some c →
      (load_models e d).1.models.lookup "random_forest" =
        some ⟨c, none, "Random Forest"⟩) ∧
    (d.logistic_regression = none →
      (load_models e d).1.models.lookup "logistic_regression" =
        e.models.lookup "logistic_regression") ∧
    (∀ c, d.logistic_regression = some c →
      (load_models e d).1.models.lookup "logistic_regression" =
        some ⟨c, none, "Logistic Regression"⟩) := by
  have hne : ("random_forest" : String) ≠ "logistic_regression" := by decide
  have hne' : ("logistic_regression" : String) ≠ "random_forest" := by decide
  obtain ⟨drf, dlr, dsc, denc⟩ := d
  cases drf <;> cases dlr <;> cases dsc <;> cases denc <;>
    refine ⟨?_, ?_, ?_, ?_, ?_, ?_⟩ <;>
    simp [load_models, lookup_dictSet_self, lookup_dictSet_ne, hne, hne',
      Bool.or_comm]

/-- Witness for the amended C4 at a concrete engine and directory. -/
theorem C4_load_characterisation_witness :
    ((load_models MLEngine.init diskMissingLr).2 = true ↔
      diskMissingLr.scaler.isSome = true ∧ diskMissingLr.encoders.isSome = true) ∧
    ((load_models MLEngine.init diskMissingLr).1.is_trained =
      (MLEngine.init.is_trained ||
        (diskMissingLr.scaler.isSome && diskMissingLr.encoders.isSome))) ∧
    (diskMissingLr.random_forest = none →
      (load_models MLEngine.init diskMissingLr).1.models.lookup "random_forest" =
        MLEngine.init.models.lookup "random_forest") ∧
    (∀ c, diskMissingLr.random_forest = some c →
      (load_models MLEngine.init diskMissingLr).1.models.lookup "random_forest" =
        some ⟨c, none, "Random Forest"⟩) ∧
    (diskMissingLr.logistic_regression = none →
      (load_models MLEngine.init diskMissingLr).1.models.lookup "logistic_regression" =
        MLEngine.init.models.lookup "logistic_regression") ∧
    (∀ c, diskMissingLr.logistic_regression = some c →
      (load_models MLEngine.init diskMissingLr).1.models.lookup "logistic_regression" =
        some ⟨c, none, "Logistic Regression"⟩) :=
  C4_load_characterisation MLEngine.init diskMissingLr

/-- C5: for every trained engine holding both models, saving and then loading
into any engine yields a bundle whose prediction on any input that does not
trigger the unseen-category condition is identical to the saved engine's
prediction (label, confidence, recommendation and per-model
sub-predictions — the whole result dict). -/
theorem C5_save_load_roundtrip (e f : MLEngine) (d : Disk) (mf : MealFeatures)
    (rfi lri : ModelInfo) (le : LabelEncoder)
    (h1 : e.is_trained = true)
    (h4 : e.models.lookup "random_forest" = some rfi)
    (h5 : e.models.lookup "logistic_regression" = some lri)
    (h2 : e.label_encoders.lookup "food_category" = some le)
    (h3 : (le.transform mf.food_category).isSome = true) :
    predict_symptoms (load_models f (save_models e d)).1 mf = predict_symptoms e mf := by
  obtain ⟨code, hcode⟩ := Option.isSome_iff_exists.mp h3
  have hsave : save_models e d =
      { random_forest := some rfi.model
        logistic_regression := some lri.model
        scaler := some e.scaler
        encoders := some e.label_encoders } := by
    unfold save_models
    rw [if_neg (show ¬ (e.is_trained = false) by simp [h1])]
    rw [h4, h5]
  rw [hsave]
  have hload : (load_models f
      { random_forest := some rfi.model
        logistic_regression := some lri.model
        scaler := some e.scaler
        encoders := some e.label_encoders }).1 =
      { models := dictSet (dictSet f.models "random_forest" ⟨rfi.model, none, "Random Forest"⟩)
          "logistic_regression" ⟨lri.model, none, "Logistic Regression"⟩
        label_encoders := e.label_encoders
        scaler := e.scaler
        is_trained := true } := rfl
  rw [hload]
  unfold predict_symptoms
  rw [if_neg (show ¬ (e.is_trained = false) by simp [h1])]
  simp only [h2, h4, h5, hcode, lookup_dictSet_self,
    lookup_dictSet_ne _ _ _ _
      (show ("random_forest" : String) ≠ "logistic_regression" by decide)]
  simp

/-- Witness for C5 at a concrete trained engine, empty directory and
request. -/
theorem C5_save_load_roundtrip_witness :
    predict_symptoms (load_models MLEngine.init (save_models sampleEngine Disk.empty)).1
      sampleMF = predict_symptoms sampleEngine sampleMF :=
  C5_save_load_roundtrip sampleEngine MLEngine.init Disk.empty sampleMF
    ⟨clsA, some 1, "Random Forest"⟩ ⟨clsB, some 1, "Logistic Regression"⟩
    (LabelEncoder.fit ["dairy", "veggie"])
    rfl rfl rfl rfl (by decide)

end TummyTracker
